import Mathlib

/-!
Verification of the connection-monitor core (probe classification,
downtime aggregation and report formatting) against its specification.
The definitions below are shallow embeddings of the functions in
`src/src/App.tsx`.
-/

namespace Logger

/-- `LogEntry` from `src/src/App.tsx` lines 4-9 (the spec's ProbeRecord):
`ttl : number | null` becomes `Option Nat`. -/
structure LogEntry where
  timestamp : String
  status : Bool
  responseTime : Nat
  ttl : Option Nat
deriving Repr, DecidableEq

/-- `calculateTotalDowntime` (`src/src/App.tsx` lines 22-26): the number of
offline records times the probe interval (seconds), converted to ms.
The source stores the result in component state; here it is returned. -/
def calculateTotalDowntime (currentLogs : List LogEntry) (interval : Nat) : Nat :=
  let offlineCount := (currentLogs.filter (fun log => !log.status)).length
  offlineCount * interval * 1000

/-- Failure classes a `fetch` call can raise inside `checkConnection`. -/
inductive FetchError
  | dns
  | refused
  | timeout
  | abort
  | transport
deriving Repr, DecidableEq

/-- `checkConnection` (`src/src/App.tsx` lines 28-70).  The `fetch` round
trip is modelled by its outcome: `Except.ok responseTime` for the try
branch, `Except.error e` for the catch branch.  Both branches build a
`LogEntry`; no error leaves the function. -/
def checkConnection (timestamp : String) (fetchResult : Except FetchError Nat)
    (elapsedOnFailure : Nat) : LogEntry :=
  match fetchResult with
  | Except.ok responseTime =>
      { timestamp := timestamp, status := true, responseTime := responseTime, ttl := some 64 }
  | Except.error _ =>
      { timestamp := timestamp, status := false, responseTime := elapsedOnFailure, ttl := none }

/-- `formatDuration` (`src/src/App.tsx` lines 72-89) on `Int`, with
JavaScript semantics: `Math.floor(a / b)` is floor division (`Int.fdiv`)
and `a % b` is the truncated remainder (`Int.tmod`, sign of the
dividend).  `parts.join(' ') || '0s'` is the empty-string check. -/
def formatDuration (ms : Int) : String :=
  let seconds := ms.fdiv 1000
  let minutes := seconds.fdiv 60
  let hours := minutes.fdiv 60
  let days := hours.fdiv 24
  let remainingHours := hours.tmod 24
  let remainingMinutes := minutes.tmod 60
  let remainingSeconds := seconds.tmod 60
  let parts : List String :=
    (if 0 < days then [toString days ++ "d"] else []) ++
    (if 0 < remainingHours then [toString remainingHours ++ "h"] else []) ++
    (if 0 < remainingMinutes then [toString remainingMinutes ++ "m"] else []) ++
    (if 0 < remainingSeconds then [toString remainingSeconds ++ "s"] else [])
  let joined := String.intercalate " " parts
  if joined = "" then "0s" else joined

/-- `formatDuration` transliterated to `Nat` (the nonnegative case),
keeping the source's nested floor divisions. -/
def formatDurationNat (ms : Nat) : String :=
  let seconds := ms / 1000
  let minutes := seconds / 60
  let hours := minutes / 60
  let days := hours / 24
  let remainingHours := hours % 24
  let remainingMinutes := minutes % 60
  let remainingSeconds := seconds % 60
  let parts : List String :=
    (if 0 < days then [toString days ++ "d"] else []) ++
    (if 0 < remainingHours then [toString remainingHours ++ "h"] else []) ++
    (if 0 < remainingMinutes then [toString remainingMinutes ++ "m"] else []) ++
    (if 0 < remainingSeconds then [toString remainingSeconds ++ "s"] else [])
  let joined := String.intercalate " " parts
  if joined = "" then "0s" else joined

/-- The specification's reading of `formatDuration`: each component is
obtained directly by floor division and modulo against the unit sizes
(86400000 ms per day, 3600000 per hour, 60000 per minute, 1000 per
second); only nonzero components are emitted, in descending unit order,
joined by single spaces, with `"0s"` when all are zero. -/
def formatDurationSpec (ms : Nat) : String :=
  let days := ms / 86400000
  let remainingHours := ms / 3600000 % 24
  let remainingMinutes := ms / 60000 % 60
  let remainingSeconds := ms / 1000 % 60
  let parts : List String :=
    (if 0 < days then [toString days ++ "d"] else []) ++
    (if 0 < remainingHours then [toString remainingHours ++ "h"] else []) ++
    (if 0 < remainingMinutes then [toString remainingMinutes ++ "m"] else []) ++
    (if 0 < remainingSeconds then [toString remainingSeconds ++ "s"] else [])
  let joined := String.intercalate " " parts
  if joined = "" then "0s" else joined

theorem fdiv_ofNat (a b : Nat) :
    Int.fdiv (Int.ofNat a) (Int.ofNat b) = Int.ofNat (a / b) := by
  cases a with
  | zero => simp [Int.fdiv]
  | succ m => rfl

theorem tmod_ofNat (a b : Nat) :
    Int.tmod (Int.ofNat a) (Int.ofNat b) = Int.ofNat (a % b) := rfl

theorem toString_int_ofNat (n : Nat) : toString (Int.ofNat n) = toString n := rfl

theorem ofNat_pos_iff (n : Nat) : (0 : Int) < Int.ofNat n ↔ 0 < n := by
  rw [Int.ofNat_eq_coe]
  exact Int.ofNat_pos

/-- On nonnegative inputs the `Int` embedding agrees with its `Nat`
transliteration. -/
theorem formatDuration_ofNat (ms : Nat) :
    formatDuration (Int.ofNat ms) = formatDurationNat ms := by
  unfold formatDuration formatDurationNat
  simp only [show (1000 : Int) = Int.ofNat 1000 from rfl,
    show (60 : Int) = Int.ofNat 60 from rfl, show (24 : Int) = Int.ofNat 24 from rfl,
    fdiv_ofNat, tmod_ofNat, toString_int_ofNat, ofNat_pos_iff]

/-- The truncated remainder of a nonpositive dividend is nonpositive
(JavaScript `%` keeps the dividend's sign). -/
theorem tmod_nonpos_of_nonpos {a : Int} (b : Int) (h : a ≤ 0) : a.tmod b ≤ 0 := by
  cases a with
  | ofNat m =>
      have hm : m = 0 := by
        by_contra hne
        have : (0 : Int) < Int.ofNat m := (ofNat_pos_iff m).mpr (Nat.pos_of_ne_zero hne)
        omega
      subst hm
      simp
  | negSucc m =>
      cases b with
      | ofNat n =>
          show -Int.ofNat (Nat.succ m % n) ≤ 0
          exact Int.neg_nonpos_of_nonneg (Int.ofNat_nonneg _)
      | negSucc n =>
          show -Int.ofNat (Nat.succ m % Nat.succ n) ≤ 0
          exact Int.neg_nonpos_of_nonneg (Int.ofNat_nonneg _)

/-- A negative duration renders as `"0s"`: every floor quotient stays
negative and every truncated remainder stays nonpositive, so no unit
check fires. -/
theorem formatDuration_of_neg (ms : Int) (h : ms < 0) : formatDuration ms = "0s" := by
  have hsec : ms.fdiv 1000 < 0 := Int.fdiv_neg' h (by decide)
  have hmin : (ms.fdiv 1000).fdiv 60 < 0 := Int.fdiv_neg' hsec (by decide)
  have hhr : ((ms.fdiv 1000).fdiv 60).fdiv 60 < 0 := Int.fdiv_neg' hmin (by decide)
  have hday : (((ms.fdiv 1000).fdiv 60).fdiv 60).fdiv 24 < 0 := Int.fdiv_neg' hhr (by decide)
  have hrh : (((ms.fdiv 1000).fdiv 60).fdiv 60).tmod 24 ≤ 0 :=
    tmod_nonpos_of_nonpos _ (le_of_lt hhr)
  have hrm : ((ms.fdiv 1000).fdiv 60).tmod 60 ≤ 0 :=
    tmod_nonpos_of_nonpos _ (le_of_lt hmin)
  have hrs : (ms.fdiv 1000).tmod 60 ≤ 0 :=
    tmod_nonpos_of_nonpos _ (le_of_lt hsec)
  simp only [formatDuration, not_lt.mpr hday.le, not_lt.mpr hrh, not_lt.mpr hrm,
    not_lt.mpr hrs, if_false]
  rfl

theorem intercalate_nil_eq : String.intercalate " " [] = "" := rfl

/-- A nonnegative duration below one second renders as `"0s"`. -/
theorem formatDurationNat_of_lt_1000 (ms : Nat) (h : ms < 1000) :
    formatDurationNat ms = "0s" := by
  simp [formatDurationNat, Nat.div_eq_of_lt h, intercalate_nil_eq]

/-- The source's nested floor divisions coincide with the direct
per-unit decomposition of the specification. -/
theorem formatDurationNat_eq_spec (ms : Nat) :
    formatDurationNat ms = formatDurationSpec ms := by
  unfold formatDurationNat formatDurationSpec
  simp only [Nat.div_div_eq_div_mul]

/-- One downtime sequence as built by `generateDowntimeSummary`
(`src/src/App.tsx` line 94): `{ start: string; count: number }`. -/
structure DowntimeSeq where
  start : String
  count : Nat
deriving Repr, DecidableEq

/-- `sequences[sequences.length - 1].count++` (`src/src/App.tsx` line
102): increment the count of the last sequence in place. -/
def bumpLast : List DowntimeSeq → List DowntimeSeq
  | [] => []
  | [s] => [{ s with count := s.count + 1 }]
  | s :: rest => s :: bumpLast rest

/-- One iteration of the `logs.forEach` loop in
`generateDowntimeSummary` (`src/src/App.tsx` lines 96-108).  The
accumulator carries `sequences` and `currentSequence`. -/
def seqStep (acc : List DowntimeSeq × List LogEntry) (log : LogEntry) :
    List DowntimeSeq × List LogEntry :=
  if !log.status then
    if acc.2.length = 0 then
      (acc.1 ++ [⟨log.timestamp, 1⟩], [log])
    else
      (bumpLast acc.1, acc.2 ++ [log])
  else
    (acc.1, [])

/-- The downtime sequences extracted by the `forEach` scan of
`generateDowntimeSummary`, starting from empty accumulators. -/
def extractSequences (logs : List LogEntry) : List DowntimeSeq :=
  (logs.foldl seqStep ([], [])).1

theorem length_dropWhile_le_self (p : LogEntry → Bool) (l : List LogEntry) :
    (l.dropWhile p).length ≤ l.length := by
  conv_rhs => rw [← List.takeWhile_append_dropWhile (p := p) (l := l)]
  rw [List.length_append]
  omega

/-- Modelled from the spec's words (§3, §4.3): one incident per maximal
run of consecutive `reachable = false` records, whose `startTimestamp`
is the run's first record's timestamp and whose `probeCount` is the
run's length. -/
def specRuns : List LogEntry → List DowntimeSeq
  | [] => []
  | r :: rs =>
    if r.status then specRuns rs
    else
      ⟨r.timestamp, 1 + (rs.takeWhile (fun x => !x.status)).length⟩ ::
        specRuns (rs.dropWhile (fun x => !x.status))
termination_by l => l.length
decreasing_by
  · simp only [List.length_cons]
    omega
  · simp only [List.length_cons]
    have := length_dropWhile_le_self (fun x => !x.status) rs
    omega

theorem bumpLast_append_one (xs : List DowntimeSeq) (s : DowntimeSeq) :
    bumpLast (xs ++ [s]) = xs ++ [{ s with count := s.count + 1 }] := by
  induction xs with
  | nil => rfl
  | cons x xs ih =>
      cases xs with
      | nil => rfl
      | cons y ys => simpa [bumpLast] using ih

/-- Invariant of the `forEach` scan.  First component: outside an
incident, the scan appends exactly the specification's runs.  Second
component: inside an incident whose last recorded sequence is `s`, the
leading failures of the rest extend `s.count` and the scan then
continues as from outside. -/
theorem foldl_seqStep_inv (l : List LogEntry) :
    (∀ seqs : List DowntimeSeq,
       (l.foldl seqStep (seqs, [])).1 = seqs ++ specRuns l) ∧
    (∀ (seqs : List DowntimeSeq) (s : DowntimeSeq) (cur : List LogEntry),
       cur ≠ [] →
       (l.foldl seqStep (seqs ++ [s], cur)).1 =
         seqs ++ ⟨s.start, s.count + (l.takeWhile (fun x => !x.status)).length⟩ ::
           specRuns (l.dropWhile (fun x => !x.status))) := by
  induction l with
  | nil =>
      refine ⟨fun seqs => by simp [specRuns], fun seqs s cur hcur => by simp [specRuns]⟩
  | cons r rs ih =>
      constructor
      · intro seqs
        by_cases hr : r.status
        · have : seqStep (seqs, []) r = (seqs, []) := by
            simp [seqStep, hr]
          rw [List.foldl_cons, this, ih.1]
          simp [specRuns, hr]
        · have : seqStep (seqs, []) r = (seqs ++ [⟨r.timestamp, 1⟩], [r]) := by
            simp [seqStep, hr]
          rw [List.foldl_cons, this, ih.2 _ _ _ (by simp)]
          simp [specRuns, hr, Nat.add_comm]
      · intro seqs s cur hcur
        by_cases hr : r.status
        · have : seqStep (seqs ++ [s], cur) r = (seqs ++ [s], []) := by
            simp [seqStep, hr]
          rw [List.foldl_cons, this, ih.1]
          simp [List.takeWhile_cons, List.dropWhile_cons, hr, specRuns]
        · have hc : ¬ cur.length = 0 := by
            simpa [List.length_eq_zero] using hcur
          have : seqStep (seqs ++ [s], cur) r =
              (seqs ++ [{ s with count := s.count + 1 }], cur ++ [r]) := by
            simp [seqStep, hr, hc, bumpLast_append_one]
          rw [List.foldl_cons, this, ih.2 _ _ _ (by simp)]
          simp [List.takeWhile_cons, List.dropWhile_cons, hr]
          omega

/-- The scan of `generateDowntimeSummary` computes exactly the
specification's maximal runs. -/
theorem extractSequences_eq_specRuns (logs : List LogEntry) :
    extractSequences logs = specRuns logs := by
  simpa [extractSequences] using (foldl_seqStep_inv logs).1 []

/-- The probe counts of the specification's runs add up to the number
of unreachable records (strong induction on the log length, because
`specRuns` recurses through `dropWhile`). -/
theorem sum_counts_aux (n : Nat) : ∀ l : List LogEntry, l.length ≤ n →
    ((specRuns l).map (fun s => s.count)).sum =
      (l.filter (fun r => !r.status)).length := by
  induction n with
  | zero =>
      intro l h
      have hl : l = [] := List.length_eq_zero.mp (Nat.le_zero.mp h)
      subst hl
      simp [specRuns]
  | succ n ih =>
      intro l h
      cases l with
      | nil => simp [specRuns]
      | cons r rs =>
          simp only [List.length_cons] at h
          by_cases hr : r.status
          · rw [specRuns]
            simp [hr, List.filter_cons, ih rs (by omega)]
          · rw [specRuns]
            simp only [hr, Bool.false_eq_true, if_false, List.map_cons, List.sum_cons]
            have hd := ih (rs.dropWhile (fun x => !x.status))
              (le_trans (length_dropWhile_le_self _ rs) (by omega))
            rw [hd]
            have hsplit : (rs.filter (fun x => !x.status)).length =
                (rs.takeWhile (fun x => !x.status)).length +
                ((rs.dropWhile (fun x => !x.status)).filter (fun x => !x.status)).length := by
              conv_lhs =>
                rw [← List.takeWhile_append_dropWhile (p := fun x => !x.status) (l := rs)]
              rw [List.filter_append, List.length_append,
                List.filter_eq_self.mpr
                  (fun a ha => List.mem_takeWhile_imp (p := fun x : LogEntry => !x.status) ha)]
            simp [List.filter_cons, hr, hsplit]
            omega

theorem sum_counts_specRuns (l : List LogEntry) :
    ((specRuns l).map (fun s => s.count)).sum =
      (l.filter (fun r => !r.status)).length :=
  sum_counts_aux l.length l (Nat.le_refl _)

/-- One line of the downtime summary (`src/src/App.tsx` lines 113-116).
`new Date(...).toLocaleString()` and `new Date(...).getTime()` are
modelled by the ambient functions `render : Int → String` and
`parse : String → Int` (epoch milliseconds). -/
def summaryLine (parse : String → Int) (render : Int → String) (interval : Nat)
    (idx : Nat) (seq : DowntimeSeq) : String :=
  let duration := seq.count * interval
  toString (idx + 1) ++ ". From " ++ render (parse seq.start) ++ " to " ++
    render (parse seq.start + Int.ofNat (duration * 1000)) ++
    " (" ++ formatDuration (Int.ofNat (duration * 1000)) ++ ")\n"

/-- `generateDowntimeSummary` (`src/src/App.tsx` lines 91-121): extract
the downtime sequences and, when there is at least one, render a header
followed by one numbered line per sequence; otherwise return the
initial empty string. -/
def generateDowntimeSummary (parse : String → Int) (render : Int → String)
    (interval : Nat) (logs : List LogEntry) : String :=
  let sequences := extractSequences logs
  if 0 < sequences.length then
    "\nDowntime Periods:\n" ++
      String.join (sequences.enum.map (fun p => summaryLine parse render interval p.1 p.2))
  else ""

/-- One line of the detailed log (`src/src/App.tsx` lines 126-133 and
184-191): `log.ttl ?? 'N/A'` is nullish coalescing, so a present `ttl`
(including `0`) renders as its value. -/
def detailedLogLine (log : LogEntry) : String :=
  log.timestamp ++ " | Status: " ++ (if log.status then "Online" else "Offline") ++
    " | Response Time: " ++ toString log.responseTime ++ "ms | TTL: " ++
    (match log.ttl with
     | some t => toString t
     | none => "N/A")

/-- The detailed-log text sent by `sendLogsEmail` and embedded by
`saveToFile`: the lines joined by newline. -/
def emailLogsContent (logs : List LogEntry) : String :=
  String.intercalate "\n" (logs.map detailedLogLine)

/-- The monitoring session's mutable state (`src/src/App.tsx` lines
12-20): the React state hooks and the two timer refs.  `armedTimers`
records which `window.setInterval` handles are currently armed (armed
by `setInterval`, disarmed by `clearInterval`); `nextTimerId` makes
handles fresh. -/
structure SessionState where
  interval : Nat
  isMonitoring : Bool
  logs : List LogEntry
  totalDowntime : Nat
  emailAddress : String
  isEmailEnabled : Bool
  timerRef : Option Nat
  emailTimerRef : Option Nat
  armedTimers : List Nat
  nextTimerId : Nat
deriving Repr, DecidableEq

/-- `window.setInterval(...)`: arms a fresh periodic trigger and
returns its handle. -/
def setIntervalTimer (s : SessionState) : Nat × SessionState :=
  (s.nextTimerId,
   { s with armedTimers := s.armedTimers ++ [s.nextTimerId],
            nextTimerId := s.nextTimerId + 1 })

/-- `clearInterval(id)`: disarms the trigger with the given handle. -/
def clearIntervalTimer (id : Nat) (s : SessionState) : SessionState :=
  { s with armedTimers := s.armedTimers.filter (fun t => t ≠ id) }

/-- A completed `checkConnection` call (`src/src/App.tsx` lines 48-52
and 64-68): append the classified record and recompute the total
downtime from the updated log. -/
def appendProbe (ts : String) (fetchResult : Except FetchError Nat)
    (elapsedOnFailure : Nat) (s : SessionState) : SessionState :=
  let newLog := checkConnection ts fetchResult elapsedOnFailure
  let updatedLogs := s.logs ++ [newLog]
  { s with logs := updatedLogs,
           totalDowntime := calculateTotalDowntime updatedLogs s.interval }

/-- `startMonitoring` (`src/src/App.tsx` lines 158-166): set the flag,
issue one immediate probe, arm the probe trigger, and, when email
reporting is configured, arm the report trigger.  The function has no
guard against being called while already monitoring. -/
def startMonitoring (ts : String) (fetchResult : Except FetchError Nat)
    (elapsedOnFailure : Nat) (s : SessionState) : SessionState :=
  let s1 := { s with isMonitoring := true }
  let s2 := appendProbe ts fetchResult elapsedOnFailure s1
  let armed := setIntervalTimer s2
  let s3 := { armed.2 with timerRef := some armed.1 }
  if s3.isEmailEnabled && s3.emailAddress ≠ "" then
    let armedEmail := setIntervalTimer s3
    { armedEmail.2 with emailTimerRef := some armedEmail.1 }
  else s3

/-- `stopMonitoring` (`src/src/App.tsx` lines 168-178): clear the flag
and disarm whichever of the two triggers hold a handle. -/
def stopMonitoring (s : SessionState) : SessionState :=
  let s1 := { s with isMonitoring := false }
  let s2 :=
    match s1.timerRef with
    | some t => { clearIntervalTimer t s1 with timerRef := none }
    | none => s1
  match s2.emailTimerRef with
  | some t => { clearIntervalTimer t s2 with emailTimerRef := none }
  | none => s2

/-- `clearLogs` (`src/src/App.tsx` lines 205-208). -/
def clearLogs (s : SessionState) : SessionState :=
  { s with logs := [], totalDowntime := 0 }

/-- The operations a caller can invoke on the session.  `start` and
`tick` carry the probe outcome their `checkConnection` call observes. -/
inductive Action
  | start (ts : String) (fetchResult : Except FetchError Nat) (elapsedOnFailure : Nat)
  | stop
  | tick (ts : String) (fetchResult : Except FetchError Nat) (elapsedOnFailure : Nat)
  | clear

def Action.isClear : Action → Bool
  | .clear => true
  | _ => false

def step (s : SessionState) : Action → SessionState
  | .start ts res e => startMonitoring ts res e s
  | .stop => stopMonitoring s
  | .tick ts res e => appendProbe ts res e s
  | .clear => clearLogs s

def run (s : SessionState) (acts : List Action) : SessionState :=
  acts.foldl step s

/-- The component's only call path into start/stop (`src/src/App.tsx`
line 247): the button dispatches `stopMonitoring` when monitoring and
`startMonitoring` when idle. -/
def toggleMonitoring (ts : String) (fetchResult : Except FetchError Nat)
    (elapsedOnFailure : Nat) (s : SessionState) : SessionState :=
  if s.isMonitoring then stopMonitoring s
  else startMonitoring ts fetchResult elapsedOnFailure s

/-- Well-formed timer bookkeeping: the armed triggers are exactly the
ones the refs hold, and refs are held exactly while monitoring. -/
def TimersWF (s : SessionState) : Prop :=
  match s.timerRef, s.emailTimerRef with
  | none, none => s.armedTimers = [] ∧ s.isMonitoring = false
  | some t, none => s.armedTimers = [t] ∧ s.isMonitoring = true ∧ t < s.nextTimerId
  | some t, some u =>
      s.armedTimers = [t, u] ∧ s.isMonitoring = true ∧
        t < s.nextTimerId ∧ u < s.nextTimerId ∧ t ≠ u
  | none, some _ => False

/-! ### Concrete probe records used to instantiate the theorems -/

def okE (t : String) : LogEntry := ⟨t, true, 20, some 64⟩

def failE (t : String) : LogEntry := ⟨t, false, 20, none⟩

/-- The spec's worked example `[ok, fail, fail, ok, fail]`. -/
def demo5 : List LogEntry := [okE "t0", failE "t1", failE "t2", okE "t3", failE "t4"]

/-! ### Claim theorems -/

/-- C1: for every log and positive `intervalSeconds`, the aggregated
`totalDowntimeMs` equals the number of `reachable = false` records
times `intervalSeconds × 1000`, and also equals the downtime summed
over the extracted incidents — so it is independent of how the
unreachable records are grouped into incidents. -/
theorem totalDowntime_counts_records (logs : List LogEntry) (interval : Nat)
    (h : 0 < interval) :
    calculateTotalDowntime logs interval =
      (logs.filter (fun r => !r.status)).length * interval * 1000 ∧
    calculateTotalDowntime logs interval =
      ((extractSequences logs).map (fun s => s.count)).sum * interval * 1000 := by
  refine ⟨rfl, ?_⟩
  rw [extractSequences_eq_specRuns, sum_counts_specRuns]
  rfl

theorem totalDowntime_counts_records_witness :
    0 < 5 ∧
    (calculateTotalDowntime demo5 5 =
        (demo5.filter (fun r => !r.status)).length * 5 * 1000 ∧
      calculateTotalDowntime demo5 5 =
        ((extractSequences demo5).map (fun s => s.count)).sum * 5 * 1000) :=
  ⟨by decide, totalDowntime_counts_records demo5 5 (by decide)⟩

/-- C2: the scan of `generateDowntimeSummary` produces exactly one
incident per maximal run of consecutive unreachable records, opened at
the run's first record's timestamp with `probeCount = 1` and
incremented through the run; `[ok, fail, fail, ok, fail]` yields two
incidents of counts 2 and 1, a log that starts unreachable opens its
incident at index 0 (kept even when the log ends inside it), and an
all-reachable log yields no incidents. -/
theorem extractSequences_maximal_runs :
    (∀ logs : List LogEntry, extractSequences logs = specRuns logs) ∧
    extractSequences demo5 = [⟨"t1", 2⟩, ⟨"t4", 1⟩] ∧
    (∀ (r : LogEntry) (rs : List LogEntry), r.status = false →
      extractSequences (r :: rs) =
        ⟨r.timestamp, 1 + (rs.takeWhile (fun x => !x.status)).length⟩ ::
          specRuns (rs.dropWhile (fun x => !x.status))) ∧
    (∀ logs : List LogEntry, (∀ r ∈ logs, r.status = true) →
      extractSequences logs = []) := by
  refine ⟨extractSequences_eq_specRuns, by decide, ?_, ?_⟩
  · intro r rs hr
    rw [extractSequences_eq_specRuns, specRuns]
    simp [hr]
  · intro logs hall
    rw [extractSequences_eq_specRuns]
    induction logs with
    | nil => simp [specRuns]
    | cons r rs ih =>
        rw [specRuns]
        simp [hall r (by simp), ih (fun x hx => hall x (by simp [hx]))]

theorem extractSequences_maximal_runs_witness :
    extractSequences demo5 = specRuns demo5 ∧
    extractSequences demo5 = [⟨"t1", 2⟩, ⟨"t4", 1⟩] ∧
    extractSequences (failE "t0" :: [failE "t1", okE "t2"]) =
      ⟨(failE "t0").timestamp,
        1 + (([failE "t1", okE "t2"]).takeWhile (fun x => !x.status)).length⟩ ::
        specRuns (([failE "t1", okE "t2"]).dropWhile (fun x => !x.status)) ∧
    extractSequences [okE "a", okE "b"] = [] :=
  ⟨extractSequences_maximal_runs.1 demo5,
   extractSequences_maximal_runs.2.1,
   extractSequences_maximal_runs.2.2.1 (failE "t0") [failE "t1", okE "t2"] (by decide),
   extractSequences_maximal_runs.2.2.2 [okE "a", okE "b"] (by decide)⟩

/-- C3: for every nonnegative `ms`, `formatDuration` decomposes `ms`
into days/hours/minutes/seconds by floor division and modulo, emits the
nonzero components in descending unit order separated by single spaces
with their unit suffixes, and `"0s"` when all components are zero; in
particular `formatDuration 0 = "0s"`, `formatDuration 90000 = "1m
30s"`, and `formatDuration 90061000 = "1d 1h 1m 1s"`. -/
theorem formatDuration_decomposition (ms : Nat) :
    formatDuration (Int.ofNat ms) = formatDurationSpec ms ∧
    formatDuration 0 = "0s" ∧
    formatDuration 90000 = "1m 30s" ∧
    formatDuration 90061000 = "1d 1h 1m 1s" := by
  refine ⟨?_, by decide, by decide, by decide⟩
  rw [formatDuration_ofNat, formatDurationNat_eq_spec]

/-- C4: the probe normalizes every failure class into a
`reachable = false` record with `ttl` absent, and yields a record (not
an exception) on every outcome: both branches of `checkConnection`
return a `LogEntry`. -/
theorem checkConnection_never_raises (ts : String) (e : FetchError)
    (lat elapsed : Nat) :
    checkConnection ts (Except.error e) elapsed =
      { timestamp := ts, status := false, responseTime := elapsed, ttl := none } ∧
    checkConnection ts (Except.ok lat) elapsed =
      { timestamp := ts, status := true, responseTime := lat, ttl := some 64 } :=
  ⟨rfl, rfl⟩

/-- C7: the probe counts of the extracted incidents sum to the number
of unreachable records in the log. -/
theorem sum_probeCount_eq_unreachable (logs : List LogEntry) :
    ((extractSequences logs).map (fun s => s.count)).sum =
      (logs.filter (fun r => !r.status)).length := by
  rw [extractSequences_eq_specRuns]
  exact sum_counts_specRuns logs

/-- C10: every duration below one second — including every negative
duration — renders as `"0s"`. -/
theorem formatDuration_sub_second (ms : Int) (h : ms < 1000) :
    formatDuration ms = "0s" := by
  rcases lt_or_le ms 0 with hneg | hpos
  · exact formatDuration_of_neg ms hneg
  · obtain ⟨k, rfl⟩ := Int.eq_ofNat_of_zero_le hpos
    show formatDuration (Int.ofNat k) = "0s"
    rw [formatDuration_ofNat]
    exact formatDurationNat_of_lt_1000 k (by exact_mod_cast h)

theorem formatDuration_sub_second_witness :
    ((-90061000 : Int) < 1000 ∧ formatDuration (-90061000) = "0s") ∧
    ((999 : Int) < 1000 ∧ formatDuration 999 = "0s") :=
  ⟨⟨by decide, formatDuration_sub_second (-90061000) (by decide)⟩,
   ⟨by decide, formatDuration_sub_second 999 (by decide)⟩⟩

/-- C5: the detailed-log text is one line per record, in log order, of
the exact shape `<timestamp> | Status: <Online|Offline> | Response
Time: <latencyMs>ms | TTL: <ttl or N/A>`; `N/A` appears exactly for an
absent `ttl`, and a present `ttl` — including `0` — renders as its
value. -/
theorem detailedLog_line_shape (logs : List LogEntry) (r : LogEntry) (t : Nat) :
    emailLogsContent logs = String.intercalate "\n" (logs.map detailedLogLine) ∧
    (logs.map detailedLogLine).length = logs.length ∧
    (r.ttl = some t →
      detailedLogLine r = r.timestamp ++ " | Status: " ++
        (if r.status then "Online" else "Offline") ++ " | Response Time: " ++
        toString r.responseTime ++ "ms | TTL: " ++ toString t) ∧
    (r.ttl = none →
      detailedLogLine r = r.timestamp ++ " | Status: " ++
        (if r.status then "Online" else "Offline") ++ " | Response Time: " ++
        toString r.responseTime ++ "ms | TTL: " ++ "N/A") ∧
    detailedLogLine ⟨"2024-01-01T00:00:00.000Z", true, 123, some 0⟩ =
      "2024-01-01T00:00:00.000Z | Status: Online | Response Time: 123ms | TTL: 0" ∧
    detailedLogLine ⟨"2024-01-01T00:00:00.000Z", false, 50, none⟩ =
      "2024-01-01T00:00:00.000Z | Status: Offline | Response Time: 50ms | TTL: N/A" := by
  refine ⟨rfl, List.length_map _ _, ?_, ?_, by decide, by decide⟩
  · intro h
    simp [detailedLogLine, h]
  · intro h
    simp [detailedLogLine, h]

theorem detailedLog_line_shape_witness :
    emailLogsContent demo5 = String.intercalate "\n" (demo5.map detailedLogLine) ∧
    detailedLogLine ⟨"T", true, 5, some 7⟩ =
      "T" ++ " | Status: " ++ "Online" ++ " | Response Time: " ++
        toString 5 ++ "ms | TTL: " ++ toString 7 :=
  ⟨(detailedLog_line_shape demo5 ⟨"T", true, 5, some 7⟩ 7).1,
   by simpa using (detailedLog_line_shape demo5 ⟨"T", true, 5, some 7⟩ 7).2.2.1 rfl⟩

/-- C6 counterexample: with an empty incident list the summary is the
empty string — no "no downtime" sentinel text is rendered. -/
theorem incidentSummary_empty_no_sentinel :
    generateDowntimeSummary (fun _ => 0) (fun _ => "") 5 [] = "" ∧
    (generateDowntimeSummary (fun _ => 0) (fun _ => "") 5 []).length = 0 := by
  decide

/-- C6 amended: the incident summary renders, for a nonempty incident
list, the header `"\nDowntime Periods:"` followed by one numbered line
per incident of the form `<n>. From <start> to <end> (<formatted
duration>)` with end time `startTimestamp + probeCount ×
intervalSeconds`; with an empty incident list it renders the empty
string (not a sentinel). -/
theorem incidentSummary_shape (parse : String → Int) (render : Int → String)
    (interval : Nat) (logs : List LogEntry) :
    (extractSequences logs = [] →
      generateDowntimeSummary parse render interval logs = "") ∧
    (extractSequences logs ≠ [] →
      generateDowntimeSummary parse render interval logs =
        "\nDowntime Periods:\n" ++
          String.join ((extractSequences logs).enum.map (fun p =>
            toString (p.1 + 1) ++ ". From " ++ render (parse p.2.start) ++ " to " ++
              render (parse p.2.start + Int.ofNat (p.2.count * interval * 1000)) ++
              " (" ++ formatDuration (Int.ofNat (p.2.count * interval * 1000)) ++ ")\n"))) := by
  constructor
  · intro h
    simp [generateDowntimeSummary, h]
  · intro h
    have hlen : 0 < (extractSequences logs).length := List.length_pos.mpr h
    simp only [generateDowntimeSummary, if_pos hlen, summaryLine]

theorem incidentSummary_shape_witness :
    (extractSequences demo5 ≠ [] →
      generateDowntimeSummary (fun _ => 0) (fun i => toString i) 5 demo5 =
        "\nDowntime Periods:\n" ++
          String.join ((extractSequences demo5).enum.map (fun p =>
            toString (p.1 + 1) ++ ". From " ++ toString ((fun _ => (0 : Int)) p.2.start) ++
              " to " ++
              toString ((fun _ => (0 : Int)) p.2.start + Int.ofNat (p.2.count * 5 * 1000)) ++
              " (" ++ formatDuration (Int.ofNat (p.2.count * 5 * 1000)) ++ ")\n"))) ∧
    extractSequences demo5 ≠ [] :=
  ⟨(incidentSummary_shape (fun _ => 0) (fun i => toString i) 5 demo5).2, by decide⟩

/-- Closed form of `startMonitoring`: flag set, one record appended,
downtime recomputed, and one or two fresh triggers armed depending on
the email configuration. -/
theorem startMonitoring_eq (ts : String) (res : Except FetchError Nat)
    (e : Nat) (s : SessionState) :
    startMonitoring ts res e s =
      if s.isEmailEnabled && s.emailAddress ≠ "" then
        { s with isMonitoring := true,
                 logs := s.logs ++ [checkConnection ts res e],
                 totalDowntime :=
                   calculateTotalDowntime (s.logs ++ [checkConnection ts res e]) s.interval,
                 timerRef := some s.nextTimerId,
                 emailTimerRef := some (s.nextTimerId + 1),
                 armedTimers := s.armedTimers ++ [s.nextTimerId] ++ [s.nextTimerId + 1],
                 nextTimerId := s.nextTimerId + 1 + 1 }
      else
        { s with isMonitoring := true,
                 logs := s.logs ++ [checkConnection ts res e],
                 totalDowntime :=
                   calculateTotalDowntime (s.logs ++ [checkConnection ts res e]) s.interval,
                 timerRef := some s.nextTimerId,
                 armedTimers := s.armedTimers ++ [s.nextTimerId],
                 nextTimerId := s.nextTimerId + 1 } := by
  unfold startMonitoring appendProbe setIntervalTimer
  dsimp only

theorem startMonitoring_logs (ts : String) (res : Except FetchError Nat)
    (e : Nat) (s : SessionState) :
    (startMonitoring ts res e s).logs = s.logs ++ [checkConnection ts res e] := by
  rw [startMonitoring_eq]
  split <;> rfl

theorem stopMonitoring_logs (s : SessionState) :
    (stopMonitoring s).logs = s.logs := by
  rcases s with ⟨i, m, lg, td, ea, ee, tr, etr, arm, nid⟩
  cases tr <;> cases etr <;> rfl

theorem step_logs_extend (s : SessionState) (a : Action) (h : a.isClear = false) :
    ∃ l, (step s a).logs = s.logs ++ l := by
  cases a with
  | start ts res e => exact ⟨[checkConnection ts res e], startMonitoring_logs ts res e s⟩
  | stop => exact ⟨[], by simp [step, stopMonitoring_logs]⟩
  | tick ts res e => exact ⟨[checkConnection ts res e], rfl⟩
  | clear => simp [Action.isClear] at h

theorem run_logs_extend (acts : List Action) :
    ∀ s : SessionState, (∀ a ∈ acts, a.isClear = false) →
      ∃ l, (run s acts).logs = s.logs ++ l := by
  induction acts with
  | nil => exact fun s _ => ⟨[], by simp [run]⟩
  | cons a as ih =>
      intro s h
      obtain ⟨l1, h1⟩ := step_logs_extend s a (h a (by simp))
      obtain ⟨l2, h2⟩ := ih (step s a) (fun b hb => h b (by simp [hb]))
      refine ⟨l1 ++ l2, ?_⟩
      show (run (step s a) as).logs = s.logs ++ (l1 ++ l2)
      rw [h2, h1, List.append_assoc]

/-- C8: `stop()` leaves the ProbeLog exactly as it was; any sequence of
start/stop/tick operations without an explicit clear only ever extends
the log (previously appended records are preserved, and a nonempty log
stays nonempty); only `clearLogs` empties it. -/
theorem stop_preserves_log (s : SessionState) (acts : List Action)
    (hrun : s.isMonitoring = true) (hnc : ∀ a ∈ acts, a.isClear = false) :
    (stopMonitoring s).logs = s.logs ∧
    (∃ l, (run s acts).logs = s.logs ++ l) ∧
    (s.logs ≠ [] → (run s acts).logs ≠ []) ∧
    (clearLogs s).logs = [] := by
  refine ⟨stopMonitoring_logs s, run_logs_extend acts s hnc, ?_, rfl⟩
  intro hne
  obtain ⟨l, hl⟩ := run_logs_extend acts s hnc
  rw [hl]
  simp [hne]

/-- A concrete running session with one armed probe trigger. -/
def runningDemo : SessionState :=
  ⟨5, true, [okE "t0"], 0, "", false, some 0, none, [0], 1⟩

/-- A concrete stop / restart / tick trace with no clear. -/
def demoActs : List Action :=
  [Action.stop, Action.start "t1" (Except.error FetchError.timeout) 100,
   Action.tick "t2" (Except.ok 30) 0]

theorem stop_preserves_log_witness :
    (runningDemo.isMonitoring = true ∧ ∀ a ∈ demoActs, a.isClear = false) ∧
    ((stopMonitoring runningDemo).logs = runningDemo.logs ∧
      (∃ l, (run runningDemo demoActs).logs = runningDemo.logs ++ l) ∧
      (runningDemo.logs ≠ [] → (run runningDemo demoActs).logs ≠ []) ∧
      (clearLogs runningDemo).logs = []) :=
  ⟨⟨by decide, by decide⟩,
   stop_preserves_log runningDemo demoActs (by decide) (by decide)⟩

/-- C9 counterexample: calling `startMonitoring` while the session is
already running is not rejected: it arms a second periodic trigger on
top of the one already armed (and overwrites the stored handle, so the
old trigger can no longer be disarmed). -/
theorem start_while_running_arms_second_trigger :
    runningDemo.isMonitoring = true ∧
    runningDemo.armedTimers.length = 1 ∧
    (startMonitoring "t5" (Except.ok 10) 0 runningDemo).armedTimers.length = 2 ∧
    (startMonitoring "t5" (Except.ok 10) 0 runningDemo).armedTimers =
      runningDemo.armedTimers ++ [1] := by
  decide

theorem stopMonitoring_of_idle (s : SessionState) (hm : s.isMonitoring = false)
    (ht : s.timerRef = none) (he : s.emailTimerRef = none) :
    stopMonitoring s = s := by
  rcases s with ⟨i, m, lg, td, ea, ee, tr, etr, arm, nid⟩
  simp only at hm ht he
  subst hm; subst ht; subst he
  rfl

/-- C9 amended: `stop()` while Idle (no armed handles) is a no-op that
leaves the state unchanged; `start()` while Running is NOT rejected —
it leaves every already-armed trigger armed and arms at least one more;
but through the component's toggle dispatch, the only call path into
start/stop, the state machine transitions Idle→Running on start and
Running→Idle on stop and the timer bookkeeping stays well-formed. -/
theorem scheduler_toggle_state_machine (s : SessionState) (ts : String)
    (res : Except FetchError Nat) (e : Nat)
    (hwf : TimersWF s) :
    (s.isMonitoring = false → stopMonitoring s = s) ∧
    (s.isMonitoring = true →
      ∃ extra, extra ≠ [] ∧
        (startMonitoring ts res e s).armedTimers = s.armedTimers ++ extra) ∧
    TimersWF (toggleMonitoring ts res e s) ∧
    (toggleMonitoring ts res e s).isMonitoring = !s.isMonitoring := by
  rcases s with ⟨i, m, lg, td, ea, ee, tr, etr, arm, nid⟩
  refine ⟨?_, ?_, ?_, ?_⟩
  · intro hm
    cases tr with
    | some t =>
        exfalso
        cases etr with
        | none => exact absurd hm (by simp [TimersWF] at hwf; simp [hwf.2.1])
        | some u => exact absurd hm (by simp [TimersWF] at hwf; simp [hwf.2.1])
    | none =>
        cases etr with
        | some u => simp [TimersWF] at hwf
        | none => exact stopMonitoring_of_idle _ hm rfl rfl
  · intro hm
    rw [startMonitoring_eq]
    split
    · exact ⟨[nid, nid + 1], by simp, by simp⟩
    · exact ⟨[nid], by simp, by simp⟩
  · cases m with
    | true =>
        show TimersWF (stopMonitoring _)
        cases tr with
        | none =>
            cases etr with
            | none => simp [TimersWF] at hwf
            | some u => simp [TimersWF] at hwf
        | some t =>
            cases etr with
            | none =>
                simp only [TimersWF] at hwf
                obtain ⟨harm, hm, hlt⟩ := hwf
                subst harm
                exact ⟨by simp [stopMonitoring, clearIntervalTimer], rfl⟩
            | some u =>
                simp only [TimersWF] at hwf
                obtain ⟨harm, hm, hlt, hlu, hne⟩ := hwf
                subst harm
                refine ⟨?_, rfl⟩
                simp [stopMonitoring, clearIntervalTimer, Ne.symm hne]
    | false =>
        show TimersWF (startMonitoring ts res e _)
        cases tr with
        | some t =>
            cases etr with
            | none => simp [TimersWF] at hwf
            | some u => simp [TimersWF] at hwf
        | none =>
            cases etr with
            | some u => simp [TimersWF] at hwf
            | none =>
                simp only [TimersWF] at hwf
                obtain ⟨harm, hm⟩ := hwf
                subst harm
                rw [startMonitoring_eq]
                split
                · exact ⟨by simp, rfl, show nid < nid + 1 + 1 by omega,
                    show nid + 1 < nid + 1 + 1 by omega, show nid ≠ nid + 1 by omega⟩
                · exact ⟨by simp, rfl, show nid < nid + 1 by omega⟩
  · cases m with
    | false =>
        show (startMonitoring ts res e _).isMonitoring = true
        rw [startMonitoring_eq]
        split <;> rfl
    | true =>
        show (stopMonitoring _).isMonitoring = false
        cases tr <;> cases etr <;> rfl

/-- A concrete idle session with no armed triggers. -/
def idleDemo : SessionState := ⟨5, false, [], 0, "", false, none, none, [], 0⟩

theorem scheduler_toggle_state_machine_witness :
    (stopMonitoring idleDemo = idleDemo ∧
      TimersWF (toggleMonitoring "t" (Except.ok 3) 0 idleDemo) ∧
      (toggleMonitoring "t" (Except.ok 3) 0 idleDemo).isMonitoring =
        !idleDemo.isMonitoring) ∧
    (runningDemo.isMonitoring = true →
      ∃ extra, extra ≠ [] ∧
        (startMonitoring "t" (Except.ok 3) 0 runningDemo).armedTimers =
          runningDemo.armedTimers ++ extra) :=
  ⟨⟨(scheduler_toggle_state_machine idleDemo "t" (Except.ok 3) 0 ⟨rfl, rfl⟩).1 rfl,
    (scheduler_toggle_state_machine idleDemo "t" (Except.ok 3) 0 ⟨rfl, rfl⟩).2.2.1,
    (scheduler_toggle_state_machine idleDemo "t" (Except.ok 3) 0 ⟨rfl, rfl⟩).2.2.2⟩,
   (scheduler_toggle_state_machine runningDemo "t" (Except.ok 3) 0
      ⟨rfl, rfl, by decide⟩).2.1⟩

end Logger
